import Mathlib

/-
  Verification of the SimpleSvmHook stealth-hooking hypervisor core.

  Shallow embedding of the per-processor NPT hook state engine
  (HookVmmCommon.cpp, HookVmmAlwaysOptimized.cpp, HookCommon.cpp) and of the
  VM-exit handlers for CPUID, MSR and breakpoint exits (VmmMain.cpp).

  Modelling conventions:
  - An NPT entry is the record of the five 64-bit fields the engine ever reads
    or writes (Valid, Write, User, PageFrameNumber, NoExecute); all remaining
    bits are never touched by the modelled code, so record equality coincides
    with byte equality of entries.
  - Physical memory holding the page tables is modelled as a total function
    from a table page frame number (the value the code stores in the
    PageFrameNumber field of an interior entry and follows via GetVaFromPfn)
    and an entry index to the entry value. Pointer dereference in the walk
    becomes function application, keeping the exact read/write order of the C
    code so that aliasing behaves as in the source.
  - NT_ASSERT is a debug-only no-op; the model reproduces release behaviour.
    A code path that dereferences a null pointer or hits
    SIMPLESVMHOOK_BUG_CHECK in release mode is modelled by returning none.
-/

namespace SimpleSvmHook

/-- One NPT entry (PML4E/PDPE/PDE/PTE share this shape, x86_64.hpp). -/
structure NptEntry where
  valid : Bool
  write : Bool
  user : Bool
  pageFrameNumber : Nat
  noExecute : Bool
deriving DecidableEq

/-- Physical memory seen as page tables: table pfn -> entry index -> entry. -/
abbrev NptTables := Nat → Nat → NptEntry

/-- NPT_STATE (HookCommon.hpp). -/
inductive NptState where
  | NptDefault
  | NptHookEnabledInvisible
  | NptHookEnabledVisible
deriving DecidableEq

/-- HOOK_ENTRY (HookCommon.hpp); addresses are modelled as Nat. -/
structure HookEntry where
  hookAddress : Nat
  handler : Nat
  pageBaseForExecution : Nat
  phyPageBase : Nat
  phyPageBaseForExecution : Nat
  originalCallStub : Nat
deriving DecidableEq

/-- HOOK_DATA (HookCommon.hpp). The pre-allocated pool is modelled by the
    function giving each slot's page frame number plus the used counter. -/
structure HookData where
  tables : NptTables
  pml4Pfn : Nat
  preAllocatedNptEntries : Nat → Nat
  usedPreAllocatedEntriesCount : Nat
  maxNptPdpEntriesUsed : Nat
  activeHookEntry : Option HookEntry
  nptState : NptState

/-- GetPxeIndex (HookCommon.hpp): (pa >> 39) & 0x1ff. -/
def GetPxeIndex (pa : Nat) : Nat := (pa >>> 39) &&& 0x1ff

/-- GetPpeIndex (HookCommon.hpp): (pa >> 30) & 0x1ff. -/
def GetPpeIndex (pa : Nat) : Nat := (pa >>> 30) &&& 0x1ff

/-- GetPdeIndex (HookCommon.hpp): (pa >> 21) & 0x1ff. -/
def GetPdeIndex (pa : Nat) : Nat := (pa >>> 21) &&& 0x1ff

/-- GetPteIndex (HookCommon.hpp): (pa >> 12) & 0x1ff. -/
def GetPteIndex (pa : Nat) : Nat := (pa >>> 12) &&& 0x1ff

/-- GetPfnFromPa (HookCommon.hpp): pa >> PAGE_SHIFT. -/
def GetPfnFromPa (pa : Nat) : Nat := pa >>> 12

/-- PAGE_ALIGN: clear the low 12 bits. -/
def PAGE_ALIGN (addr : Nat) : Nat := (addr >>> 12) <<< 12

/-- Write one entry of one table; all other entries are untouched. -/
def updateEntry (t : NptTables) (tbl idx : Nat) (e : NptEntry) : NptTables :=
  fun tb i => if tb = tbl ∧ i = idx then e else t tb i

/-- The 512-iteration loop setting NoExecute on every entry of one table
    (ChangePermissionOfPage / MakeAllSubTablesExecutable). -/
def setAllNoExecute (t : NptTables) (tbl : Nat) (nx : Bool) : NptTables :=
  fun tb i =>
    if tb = tbl ∧ i < 512 then { t tb i with noExecute := nx } else t tb i

/-- The loop in ChangePermissionsOfAllPages setting NoExecute on the PDPT
    entries with index below MaxPpeIndex. -/
def setRangeNoExecute (t : NptTables) (tbl n : Nat) (nx : Bool) : NptTables :=
  fun tb i =>
    if tb = tbl ∧ i < n then { t tb i with noExecute := nx } else t tb i

/-- FindHookEntryByPhysicalPage (HookVmmCommon.cpp). -/
def FindHookEntryByPhysicalPage (hooks : List HookEntry) (physicalAddress : Nat) :
    Option HookEntry :=
  hooks.find? (fun registration =>
    PAGE_ALIGN physicalAddress == PAGE_ALIGN registration.phyPageBase)

/-- FindHookEntryByAddress (HookVmmCommon.cpp). -/
def FindHookEntryByAddress (hooks : List HookEntry) (virtualAddress : Nat) :
    Option HookEntry :=
  hooks.find? (fun registration => virtualAddress == registration.hookAddress)

/-- ChangePermissionOfPage (HookVmmAlwaysOptimized.cpp). Walks down to the
    leaf for the given physical address; when making the page executable and
    a covering PDPT (then PD) entry is non-executable, clears that interior
    NoExecute bit and forces NoExecute on all 512 entries of its child table,
    then finally writes the leaf NoExecute bit. -/
def ChangePermissionOfPage (t : NptTables) (pml4Pfn physicalAddress : Nat)
    (disallowExecution : Bool) : NptTables :=
  let pxeIndex := GetPxeIndex physicalAddress
  let pml4Entry := t pml4Pfn pxeIndex
  let pageDirectoryPointerTable := pml4Entry.pageFrameNumber
  let ppeIndex := GetPpeIndex physicalAddress
  let pdptEntry := t pageDirectoryPointerTable ppeIndex
  let pageDirectoryTable := pdptEntry.pageFrameNumber
  let t1 :=
    if disallowExecution = false ∧ pdptEntry.noExecute = true then
      setAllNoExecute
        (updateEntry t pageDirectoryPointerTable ppeIndex
          { pdptEntry with noExecute := false })
        pageDirectoryTable true
    else t
  let pdeIndex := GetPdeIndex physicalAddress
  let pdtEntry := t1 pageDirectoryTable pdeIndex
  let pageTable := pdtEntry.pageFrameNumber
  let t2 :=
    if disallowExecution = false ∧ pdtEntry.noExecute = true then
      setAllNoExecute
        (updateEntry t1 pageDirectoryTable pdeIndex
          { pdtEntry with noExecute := false })
        pageTable true
    else t1
  let pteIndex := GetPteIndex physicalAddress
  updateEntry t2 pageTable pteIndex
    { t2 pageTable pteIndex with noExecute := disallowExecution }

/-- MakeAllSubTablesExecutable (HookVmmAlwaysOptimized.cpp). -/
def MakeAllSubTablesExecutable (t : NptTables)
    (pageDirectoryPointerTable activeHookPa : Nat) : NptTables :=
  let ppeIndex := GetPpeIndex activeHookPa
  let pdptEntry := t pageDirectoryPointerTable ppeIndex
  let pageDirectoryTable := pdptEntry.pageFrameNumber
  let t1 := setAllNoExecute t pageDirectoryTable false
  let pdeIndex := GetPdeIndex activeHookPa
  let pdtEntry := t1 pageDirectoryTable pdeIndex
  let pageTable := pdtEntry.pageFrameNumber
  setAllNoExecute t1 pageTable false

/-- ChangePermissionsOfAllPages (HookVmmAlwaysOptimized.cpp). -/
def ChangePermissionsOfAllPages (t : NptTables) (pml4Pfn activeHookPa : Nat)
    (disallowExecution : Bool) (maxPpeIndex : Nat) : NptTables :=
  let pml4Entry := t pml4Pfn 0
  let pageDirectoryPointerTable := pml4Entry.pageFrameNumber
  let t1 := setRangeNoExecute t pageDirectoryPointerTable maxPpeIndex
              disallowExecution
  if disallowExecution = false then
    MakeAllSubTablesExecutable t1 pageDirectoryPointerTable activeHookPa
  else t1

/-- OperateOnNestedPageTables with FindOperation (HookCommon.cpp), returning
    the location (table pfn, index) of the leaf entry, or none when an
    interior entry on the walk is invalid. -/
def GetNestedPageTableEntry (t : NptTables) (pml4Pfn physicalAddress : Nat) :
    Option (Nat × Nat) :=
  let pml4Entry := t pml4Pfn (GetPxeIndex physicalAddress)
  if pml4Entry.valid = false then none else
  let pdptEntry := t pml4Entry.pageFrameNumber (GetPpeIndex physicalAddress)
  if pdptEntry.valid = false then none else
  let pdtEntry := t pdptEntry.pageFrameNumber (GetPdeIndex physicalAddress)
  if pdtEntry.valid = false then none else
  some (pdtEntry.pageFrameNumber, GetPteIndex physicalAddress)

/-- AllocateNptEntry (HookCommon.cpp), pre-allocated pool path: increment the
    counter, bug-check (none) past the 50-entry capacity, otherwise return
    the pfn of pre-allocated page number usedCount - 1. -/
def AllocateNptEntry (hookData : HookData) : Option (Nat × HookData) :=
  let usedCount := hookData.usedPreAllocatedEntriesCount + 1
  if usedCount > 50 then none
  else some (hookData.preAllocatedNptEntries (usedCount - 1),
             { hookData with usedPreAllocatedEntriesCount := usedCount })

/-- One interior level of OperateOnNestedPageTables with BuildOperation
    (HookCommon.cpp): if the entry is invalid, materialise a sub-table from
    the pool (BuildNestedPageTableEntry with MAXULONG64) setting
    valid/write/user and its pfn; return the child table pfn. -/
def BuildNestedPageTableEntryInterior (hookData : HookData) (tbl idx : Nat) :
    Option (HookData × Nat) :=
  let entry := hookData.tables tbl idx
  if entry.valid = true then some (hookData, entry.pageFrameNumber)
  else
    match AllocateNptEntry hookData with
    | none => none
    | some (subTable, hd1) =>
      some ({ hd1 with tables := (updateEntry hd1.tables tbl idx
                { entry with valid := true, write := true, user := true,
                             pageFrameNumber := subTable }) },
            subTable)

/-- BuildSubTables = OperateOnNestedPageTables with BuildOperation
    (HookCommon.cpp) drawing from the pre-allocated pool: walk the four
    levels building missing interior entries, then build the leaf with
    pfn = pa >> 12. Returns the updated state and the leaf location. -/
def BuildSubTables (hookData : HookData) (physicalAddress : Nat) :
    Option (HookData × Nat × Nat) :=
  match BuildNestedPageTableEntryInterior hookData hookData.pml4Pfn
          (GetPxeIndex physicalAddress) with
  | none => none
  | some (hd1, pageDirectoryPointerTable) =>
    match BuildNestedPageTableEntryInterior hd1 pageDirectoryPointerTable
            (GetPpeIndex physicalAddress) with
    | none => none
    | some (hd2, pageDirectoryTable) =>
      match BuildNestedPageTableEntryInterior hd2 pageDirectoryTable
              (GetPdeIndex physicalAddress) with
      | none => none
      | some (hd3, pageTable) =>
        let pteIndex := GetPteIndex physicalAddress
        let ptEntry := hd3.tables pageTable pteIndex
        some ({ hd3 with tables := (updateEntry hd3.tables pageTable pteIndex
                  { ptEntry with valid := true, write := true, user := true,
                                 pageFrameNumber := GetPfnFromPa physicalAddress }) },
              pageTable, pteIndex)

/-- TransitionNptState1To2 (HookVmmCommon.cpp): bulk-disable execution on all
    PDPT entries, re-point the faulted hook page's leaf to the exec page, make
    that one page executable, record the active hook and enter state 2.
    Returns none when the NPT walk for the hook page fails (release
    null-pointer dereference after the NT_ASSERT). -/
def TransitionNptState1To2 (hookData : HookData) (currentHookEntry : HookEntry) :
    Option HookData :=
  let t1 := ChangePermissionsOfAllPages hookData.tables hookData.pml4Pfn 0 true
              hookData.maxNptPdpEntriesUsed
  match GetNestedPageTableEntry t1 hookData.pml4Pfn currentHookEntry.phyPageBase with
  | none => none
  | some (tb, i) =>
    let t2 := updateEntry t1 tb i
      { t1 tb i with
        pageFrameNumber := GetPfnFromPa currentHookEntry.phyPageBaseForExecution }
    let t3 := ChangePermissionOfPage t2 hookData.pml4Pfn
                currentHookEntry.phyPageBase false
    some { hookData with tables := t3,
                         activeHookEntry := some currentHookEntry,
                         nptState := NptState.NptHookEnabledVisible }

/-- TransitionNtpState2To1 (HookVmmCommon.cpp): bulk-enable execution
    (restoring the sibling-masked PD/PT of the active hook page), re-disable
    execution on every registered hook page, re-point the active hook page's
    leaf back to the original pfn, clear the active hook and enter state 1.
    Returns none when there is no active hook entry or the walk fails. -/
def TransitionNtpState2To1 (hooks : List HookEntry) (hookData : HookData) :
    Option HookData :=
  match hookData.activeHookEntry with
  | none => none
  | some activeHook =>
    let t1 := ChangePermissionsOfAllPages hookData.tables hookData.pml4Pfn
                activeHook.phyPageBase false hookData.maxNptPdpEntriesUsed
    let t2 := hooks.foldl
      (fun tcur registration =>
        ChangePermissionOfPage tcur hookData.pml4Pfn registration.phyPageBase true)
      t1
    match GetNestedPageTableEntry t2 hookData.pml4Pfn activeHook.phyPageBase with
    | none => none
    | some (tb, i) =>
      let t3 := updateEntry t2 tb i
        { t2 tb i with pageFrameNumber := GetPfnFromPa activeHook.phyPageBase }
      some { hookData with tables := t3,
                           activeHookEntry := none,
                           nptState := NptState.NptHookEnabledInvisible }

/-- TransitionNptState (HookVmmCommon.cpp): dispatch on whether the faulting
    page is a registered hook page and whether a hook is currently active. -/
def TransitionNptState (hooks : List HookEntry) (hookData : HookData)
    (faultPhysicalAddress : Nat) : Option HookData :=
  match FindHookEntryByPhysicalPage hooks faultPhysicalAddress with
  | some hookEntry =>
    match hookData.activeHookEntry with
    | none => TransitionNptState1To2 hookData hookEntry
    | some _ =>
      (TransitionNtpState2To1 hooks hookData).bind
        (fun hd1 => TransitionNptState1To2 hd1 hookEntry)
  | none => TransitionNtpState2To1 hooks hookData

/-- HandleNestedPageFault (HookVmmCommon.cpp). ExitInfo1 bit 0 (Valid) clear
    means the faulting page has no NPT entry (MMIO): build a 1:1 mapping from
    the pre-allocated pool (bug-check, i.e. none, when the pool is
    exhausted). Otherwise transition the NPT state. -/
def HandleNestedPageFault (hooks : List HookEntry) (exitInfo1 exitInfo2 : Nat)
    (hookData : HookData) : Option HookData :=
  let faultingPa := exitInfo2
  if Nat.testBit exitInfo1 0 = false then
    match BuildSubTables hookData faultingPa with
    | none => none
    | some (hd1, _, _) => some hd1
  else
    TransitionNptState hooks hookData faultingPa

/-- EnableHooks (HookVmmCommon.cpp): make every registered hook page
    non-executable and enter state 1. -/
def EnableHooks (hooks : List HookEntry) (hookData : HookData) : HookData :=
  let t1 := hooks.foldl
    (fun tcur registration =>
      ChangePermissionOfPage tcur hookData.pml4Pfn registration.phyPageBase true)
    hookData.tables
  { hookData with tables := t1,
                  nptState := NptState.NptHookEnabledInvisible }

/-- DisableHooks (HookVmmCommon.cpp). From state 1, make every hook page
    executable again; otherwise (the asserted-against path) bulk-enable
    execution, restore the active hook page's original backing and clear the
    active hook. Either way the state becomes 0. none models the release
    null dereference when no hook is active on the second path. -/
def DisableHooks (hooks : List HookEntry) (hookData : HookData) :
    Option HookData :=
  if hookData.nptState = NptState.NptHookEnabledInvisible then
    let t1 := hooks.foldl
      (fun tcur registration =>
        ChangePermissionOfPage tcur hookData.pml4Pfn registration.phyPageBase false)
      hookData.tables
    some { hookData with tables := t1, nptState := NptState.NptDefault }
  else
    match hookData.activeHookEntry with
    | none => none
    | some activeHook =>
      let t1 := ChangePermissionsOfAllPages hookData.tables hookData.pml4Pfn
                  activeHook.phyPageBase false hookData.maxNptPdpEntriesUsed
      match GetNestedPageTableEntry t1 hookData.pml4Pfn activeHook.phyPageBase with
      | none => none
      | some (tb, i) =>
        let t2 := updateEntry t1 tb i
          { t1 tb i with pageFrameNumber := GetPfnFromPa activeHook.phyPageBase }
        some { hookData with tables := t2,
                             activeHookEntry := none,
                             nptState := NptState.NptDefault }

/-
  VM-exit handlers (VmmMain.cpp, HookVmmCommon.cpp). Only the VMCB fields the
  handlers touch are modelled.
-/

/-- The VMCB fields read or written by the modelled exit handlers. -/
structure Vmcb where
  rip : Nat
  nRip : Nat
  eventInj : Nat
  efer : Nat
  exitInfo1 : Nat
  exitInfo2 : Nat
  ssAttrib : Nat
deriving DecidableEq

/-- EVENTINJ field accessors (Svm.hpp). -/
def EventInjVector (e : Nat) : Nat := e &&& 0xff

def EventInjType (e : Nat) : Nat := (e >>> 8) &&& 0x7

def EventInjErrorCodeValid (e : Nat) : Nat := (e >>> 11) &&& 1

def EventInjValid (e : Nat) : Nat := (e >>> 31) &&& 1

/-- EFER.SVME (x86_64.hpp): bit 12. -/
def EFER_SVME : Nat := 1 <<< 12

/-- InjectBreakPointException (HookVmmCommon.cpp): EVENTINJ with Vector = 3,
    Type = 3 and Valid = 1, then advance RIP to NRip. -/
def InjectBreakPointException (guestVmcb : Vmcb) : Vmcb :=
  { guestVmcb with
    eventInj := 3 ||| (3 <<< 8) ||| (1 <<< 31),
    rip := guestVmcb.nRip }

/-- HandleBreakPointException (HookVmmCommon.cpp): redirect RIP to the hook
    handler when the guest RIP is a registered hook address, otherwise
    re-inject #BP into the guest. -/
def HandleBreakPointException (hooks : List HookEntry) (guestVmcb : Vmcb) : Vmcb :=
  match FindHookEntryByAddress hooks guestVmcb.rip with
  | some entry => { guestVmcb with rip := entry.handler }
  | none => InjectBreakPointException guestVmcb

/-- InjectGeneralProtectionException (VmmMain.cpp): EVENTINJ with Vector = 13,
    Type = 3, ErrorCodeValid = 1, Valid = 1 and error code 0. -/
def InjectGeneralProtectionException (guestVmcb : Vmcb) : Vmcb :=
  { guestVmcb with eventInj := 13 ||| (3 <<< 8) ||| (1 <<< 11) ||| (1 <<< 31) }

/-- HandleMsrAccess (VmmMain.cpp), reached only for writes to EFER: inject
    #GP when the intended low half clears SVME; then (unconditionally in the
    source) store EDX:EAX into the VMCB EFER and advance RIP to NRip. -/
def HandleMsrAccess (rax rdx : Nat) (guestVmcb : Vmcb) : Vmcb :=
  let writeValueLow := rax &&& 0xffffffff
  let vm1 :=
    if writeValueLow &&& EFER_SVME = 0 then
      InjectGeneralProtectionException guestVmcb
    else guestVmcb
  let writeValueHi := rdx &&& 0xffffffff
  let writeValue := (writeValueHi <<< 32) ||| writeValueLow
  { vm1 with efer := writeValue, rip := guestVmcb.nRip }

/-- The EAX/EBX/ECX/EDX quadruple returned by __cpuidex. -/
structure CpuidResult where
  eax : Nat
  ebx : Nat
  ecx : Nat
  edx : Nat
deriving DecidableEq

/-- Guest GPRs and the ExitVm flag of GUEST_CONTEXT used by HandleCpuid. -/
structure GuestContext where
  rax : Nat
  rbx : Nat
  rcx : Nat
  rdx : Nat
  exitVm : Bool
deriving DecidableEq

/-- HandleCpuid (VmmMain.cpp). cpuidHw models the hardware __cpuidex result
    for a (leaf, subleaf) pair. Mirrors the source exactly, including the
    hypervisor-present bit being or-ed into registers[3] (the EDX slot) for
    leaf 1, and the SS.DPL gate on the 0x41414141 back-door leaf. Returns
    none only when the back-door DisableHooks path crashes. -/
def HandleCpuid (cpuidHw : Nat → Nat → CpuidResult) (hooks : List HookEntry)
    (ctx : GuestContext) (guestVmcb : Vmcb) (hookData : HookData) :
    Option (GuestContext × Vmcb × HookData) :=
  let leaf := ctx.rax &&& 0xffffffff
  let subLeaf := ctx.rcx &&& 0xffffffff
  let registers := cpuidHw leaf subLeaf
  let afterSwitch : Option (CpuidResult × Bool × HookData) :=
    if leaf = 0x00000001 then
      -- registers[3] |= CPUID_FN0000_0001_ECX_HYPERVISOR_PRESENT
      some ({ registers with edx := registers.edx ||| (1 <<< 31) },
            ctx.exitVm, hookData)
    else if leaf = 0x40000000 then
      some ({ eax := 0x40000001, ebx := 0x706d6953, ecx := 0x7653656c,
              edx := 0x2020206d },
            ctx.exitVm, hookData)
    else if leaf = 0x40000001 then
      some ({ eax := 0x30237648, ebx := 0, ecx := 0, edx := 0 },
            ctx.exitVm, hookData)
    else if leaf = 0x41414141 then
      -- Only accept VMCALLs from the kernel-mode (SS.DPL == 0).
      let dpl := (guestVmcb.ssAttrib >>> 5) &&& 3
      if dpl ≠ 0 then some (registers, ctx.exitVm, hookData)
      else if subLeaf = 0x41414141 then some (registers, true, hookData)
      else if subLeaf = 0x41414142 then
        some (registers, ctx.exitVm, EnableHooks hooks hookData)
      else if subLeaf = 0x41414143 then
        match DisableHooks hooks hookData with
        | none => none
        | some hd1 => some (registers, ctx.exitVm, hd1)
      else some (registers, ctx.exitVm, hookData)
    else some (registers, ctx.exitVm, hookData)
  match afterSwitch with
  | none => none
  | some (registers1, exitVm1, hookData1) =>
    some ({ ctx with rax := registers1.eax, rbx := registers1.ebx,
                     rcx := registers1.ecx, rdx := registers1.edx,
                     exitVm := exitVm1 },
          { guestVmcb with rip := guestVmcb.nRip },
          hookData1)

/-
  Derived notions used to state and prove the properties.
-/

/-- Pfn of the PDPT covering pa, as read from the PML4 during the walk. -/
def walkPdptTable (t : NptTables) (pml4Pfn pa : Nat) : Nat :=
  (t pml4Pfn (GetPxeIndex pa)).pageFrameNumber

/-- Pfn of the PD covering pa, as read from the PDPT entry. -/
def walkPdTable (t : NptTables) (pml4Pfn pa : Nat) : Nat :=
  (t (walkPdptTable t pml4Pfn pa) (GetPpeIndex pa)).pageFrameNumber

/-- Pfn of the PT covering pa, as read from the PD entry. -/
def walkPtTable (t : NptTables) (pml4Pfn pa : Nat) : Nat :=
  (t (walkPdTable t pml4Pfn pa) (GetPdeIndex pa)).pageFrameNumber

/-- Location (table pfn, index) of the PDPT entry covering pa. -/
def walkPdptLoc (t : NptTables) (pml4Pfn pa : Nat) : Nat × Nat :=
  (walkPdptTable t pml4Pfn pa, GetPpeIndex pa)

/-- Location of the PD entry covering pa. -/
def walkPdLoc (t : NptTables) (pml4Pfn pa : Nat) : Nat × Nat :=
  (walkPdTable t pml4Pfn pa, GetPdeIndex pa)

/-- Location of the PT leaf entry covering pa. -/
def walkPtLoc (t : NptTables) (pml4Pfn pa : Nat) : Nat × Nat :=
  (walkPtTable t pml4Pfn pa, GetPteIndex pa)

/-- The sibling-mask step of ChangePermissionOfPage: make one interior entry
    executable and force NoExecute on all 512 entries of its child table. -/
def maskChildren (t : NptTables) (parentTbl parentIdx childTbl : Nat) : NptTables :=
  setAllNoExecute
    (updateEntry t parentTbl parentIdx
      { t parentTbl parentIdx with noExecute := false })
    childTbl true

/-- t with NoExecute forced on the positions selected by the mask. -/
def maskNx (t : NptTables) (a : Nat → Nat → Bool) : NptTables :=
  fun tb i => if a tb i then { t tb i with noExecute := true } else t tb i

/-- The entry at p has Valid, Write and User set. -/
def vwuAt (t : NptTables) (p : Nat × Nat) : Prop :=
  (t p.1 p.2).valid = true ∧ (t p.1 p.2).write = true ∧ (t p.1 p.2).user = true

/-- Relation between hook data before and after a (partial) pool-backed build:
    per-processor bookkeeping other than the pool counter is untouched, the
    counter grows by at most the number of newly written locations, entries
    outside those locations are untouched, and every newly written location
    has Valid, Write and User set. -/
def BuildPost (hd hd1 : HookData) (locs : List (Nat × Nat)) : Prop :=
  hd1.pml4Pfn = hd.pml4Pfn ∧
  hd1.preAllocatedNptEntries = hd.preAllocatedNptEntries ∧
  hd1.maxNptPdpEntriesUsed = hd.maxNptPdpEntriesUsed ∧
  hd1.activeHookEntry = hd.activeHookEntry ∧
  hd1.nptState = hd.nptState ∧
  hd1.usedPreAllocatedEntriesCount ≤
    hd.usedPreAllocatedEntriesCount + locs.length ∧
  (∀ p : Nat × Nat, p ∉ locs → hd1.tables p.1 p.2 = hd.tables p.1 p.2) ∧
  (∀ p ∈ locs, vwuAt hd1.tables p)

/-- The leaf for pa has never been mapped: either the walk fails or the leaf
    entry is invalid (the DBG assertion in HandleNestedPageFault). -/
def LeafNotMapped (t : NptTables) (pml4Pfn pa : Nat) : Prop :=
  match GetNestedPageTableEntry t pml4Pfn pa with
  | none => True
  | some (tb, i) => (t tb i).valid = false

/-- One step of the hook state engine: the four operations, each guarded by
    the preconditions the source asserts (NT_ASSERT) at its entry. -/
inductive HookStateStep (hooks : List HookEntry) : HookData → HookData → Prop where
  | enableHooks (hd : HookData) :
      hd.nptState = NptState.NptDefault →
      hd.activeHookEntry = none →
      HookStateStep hooks hd (EnableHooks hooks hd)
  | disableHooks (hd hd1 : HookData) :
      hd.nptState ≠ NptState.NptDefault →
      DisableHooks hooks hd = some hd1 →
      HookStateStep hooks hd hd1
  | transition1To2 (hd hd1 : HookData) (he : HookEntry) :
      hd.nptState = NptState.NptHookEnabledInvisible →
      hd.activeHookEntry = none →
      TransitionNptState1To2 hd he = some hd1 →
      HookStateStep hooks hd hd1
  | transition2To1 (hd hd1 : HookData) :
      hd.nptState = NptState.NptHookEnabledVisible →
      TransitionNtpState2To1 hooks hd = some hd1 →
      HookStateStep hooks hd hd1

/-- Reflexive-transitive closure of the hook state engine steps. -/
inductive HookStateReachable (hooks : List HookEntry) : HookData → HookData → Prop where
  | refl (hd : HookData) : HookStateReachable hooks hd hd
  | tail (hd hd1 hd2 : HookData) :
      HookStateReachable hooks hd hd1 →
      HookStateStep hooks hd1 hd2 →
      HookStateReachable hooks hd hd2

/-- Boolean mask selecting exactly the location (tbl, idx). -/
def locMask (tbl idx : Nat) : Nat → Nat → Bool :=
  fun tb i => tb == tbl && i == idx

/-- Boolean mask selecting the leaf locations of the given hook pages, as
    walked in t. -/
def listLeafMask (t : NptTables) (pml4Pfn : Nat) (l : List HookEntry) :
    Nat → Nat → Bool :=
  fun tb i => l.any (fun h =>
    locMask (walkPtTable t pml4Pfn h.phyPageBase)
      (GetPteIndex h.phyPageBase) tb i)

/-
  Concrete sample states used by the witnesses.
-/

/-- An all-zero (invalid) NPT entry. -/
def zeroNptEntry : NptEntry := ⟨false, false, false, 0, false⟩

/-- A small concrete NPT: PML4 page 7, PDPT page 8, PD page 9, PT page 10,
    with 1:1 leaves for physical pages 0x1000 and 0x2000; every NoExecute
    bit is clear. -/
def sampleWalkTables : NptTables := fun tb i =>
  if tb = 7 ∧ i = 0 then ⟨true, true, true, 8, false⟩
  else if tb = 8 ∧ i = 0 then ⟨true, true, true, 9, false⟩
  else if tb = 9 ∧ i = 0 then ⟨true, true, true, 10, false⟩
  else if tb = 10 ∧ i = 1 then ⟨true, true, true, 1, false⟩
  else if tb = 10 ∧ i = 2 then ⟨true, true, true, 2, false⟩
  else zeroNptEntry

/-- A hook on physical page 0x1000 (exec copy at 0x6000). -/
def sampleHookOne : HookEntry := ⟨0x9000, 0xaaaa, 0x5000, 0x1000, 0x6000, 0⟩

/-- A hook on physical page 0x2000 (exec copy at 0x7000). -/
def sampleHookTwo : HookEntry := ⟨0x9500, 0xbbbb, 0x5800, 0x2000, 0x7000, 0⟩

/-- Sample per-processor hook data over sampleWalkTables, state 0. -/
def sampleHookData : HookData :=
  ⟨sampleWalkTables, 7, fun slot => 100 + slot, 0, 1, none, NptState.NptDefault⟩

/-- Sample VMCB: RIP 0x100, NRip 0x102, EFER with SVME set, write access. -/
def sampleVmcb : Vmcb := ⟨0x100, 0x102, 0, 0x1500, 1, 0, 0⟩

/-- Sample hardware CPUID: leaf 1 returns (0x11, 0x22, 0x33, 0x44). -/
def sampleCpuidHw : Nat → Nat → CpuidResult := fun leaf _subLeaf =>
  if leaf = 1 then ⟨0x11, 0x22, 0x33, 0x44⟩ else ⟨0, 0, 0, 0⟩

/-
  Basic lemmas about the table combinators.
-/

theorem updateEntry_apply (t : NptTables) (tbl idx : Nat) (e : NptEntry)
    (tb i : Nat) :
    updateEntry t tbl idx e tb i = if tb = tbl ∧ i = idx then e else t tb i := rfl

theorem updateEntry_self (t : NptTables) (tbl idx : Nat) (e : NptEntry) :
    updateEntry t tbl idx e tbl idx = e := by
  simp [updateEntry]

theorem updateEntry_frame (t : NptTables) (tbl idx : Nat) (e : NptEntry)
    (tb i : Nat) (h : (tb, i) ≠ (tbl, idx)) :
    updateEntry t tbl idx e tb i = t tb i := by
  unfold updateEntry
  rw [if_neg]
  rintro ⟨h1, h2⟩
  exact h (by rw [h1, h2])

theorem setAllNoExecute_pageFrameNumber (t : NptTables) (tbl : Nat) (nx : Bool)
    (tb i : Nat) :
    (setAllNoExecute t tbl nx tb i).pageFrameNumber = (t tb i).pageFrameNumber := by
  unfold setAllNoExecute
  split <;> rfl

theorem setAllNoExecute_valid (t : NptTables) (tbl : Nat) (nx : Bool)
    (tb i : Nat) :
    (setAllNoExecute t tbl nx tb i).valid = (t tb i).valid := by
  unfold setAllNoExecute
  split <;> rfl

theorem setRangeNoExecute_pageFrameNumber (t : NptTables) (tbl n : Nat) (nx : Bool)
    (tb i : Nat) :
    (setRangeNoExecute t tbl n nx tb i).pageFrameNumber = (t tb i).pageFrameNumber := by
  unfold setRangeNoExecute
  split <;> rfl

theorem setRangeNoExecute_valid (t : NptTables) (tbl n : Nat) (nx : Bool)
    (tb i : Nat) :
    (setRangeNoExecute t tbl n nx tb i).valid = (t tb i).valid := by
  unfold setRangeNoExecute
  split <;> rfl

theorem updateEntry_setNx_pageFrameNumber (t : NptTables) (tbl idx : Nat)
    (b : Bool) (tb i : Nat) :
    (updateEntry t tbl idx { t tbl idx with noExecute := b } tb i).pageFrameNumber
      = (t tb i).pageFrameNumber := by
  unfold updateEntry
  split
  case isTrue h => rw [h.1, h.2]
  case isFalse h => rfl

theorem updateEntry_setNx_valid (t : NptTables) (tbl idx : Nat)
    (b : Bool) (tb i : Nat) :
    (updateEntry t tbl idx { t tbl idx with noExecute := b } tb i).valid
      = (t tb i).valid := by
  unfold updateEntry
  split
  case isTrue h => rw [h.1, h.2]
  case isFalse h => rfl

theorem index_lt_512 (x : Nat) : (x >>> 12) &&& 0x1ff < 512 :=
  Nat.lt_succ_of_le (Nat.and_le_right)

theorem GetPteIndex_lt_512 (pa : Nat) : GetPteIndex pa < 512 :=
  Nat.lt_succ_of_le (Nat.and_le_right)

theorem GetPdeIndex_lt_512 (pa : Nat) : GetPdeIndex pa < 512 :=
  Nat.lt_succ_of_le (Nat.and_le_right)

theorem GetPpeIndex_lt_512 (pa : Nat) : GetPpeIndex pa < 512 :=
  Nat.lt_succ_of_le (Nat.and_le_right)

/-
  Claim C10: pre-allocated pool counter bound.
-/

/-- C10: the per-processor pre-allocated pool counter never exceeds the
    capacity 50: a successful AllocateNptEntry increments the counter to at
    most 50 and returns slot number (old count) < 50, while allocating from
    a full pool bug-checks (models as none) instead of returning an entry
    past the end of the array. -/
theorem C10_preAllocPool_counter_bound (hookData : HookData) :
    (∀ e hd1, AllocateNptEntry hookData = some (e, hd1) →
        hd1.usedPreAllocatedEntriesCount
            = hookData.usedPreAllocatedEntriesCount + 1 ∧
        hd1.usedPreAllocatedEntriesCount ≤ 50 ∧
        hookData.usedPreAllocatedEntriesCount < 50 ∧
        e = hookData.preAllocatedNptEntries
              hookData.usedPreAllocatedEntriesCount) ∧
    (50 ≤ hookData.usedPreAllocatedEntriesCount →
        AllocateNptEntry hookData = none) := by
  constructor
  · intro e hd1 h
    unfold AllocateNptEntry at h
    by_cases hc : hookData.usedPreAllocatedEntriesCount + 1 > 50
    · simp [hc] at h
    · simp only [if_neg hc, Option.some.injEq, Prod.mk.injEq] at h
      obtain ⟨he, hhd⟩ := h
      subst hhd
      refine ⟨rfl, ?_, by omega, ?_⟩
      · show hookData.usedPreAllocatedEntriesCount + 1 ≤ 50
        omega
      · rw [← he]
        norm_num
  · intro h
    unfold AllocateNptEntry
    rw [if_pos (by omega)]

/-- Witness for C10: from count 0 the allocation stays within the bound, and
    from a full pool (count 50) allocation is fatal. -/
theorem C10_preAllocPool_counter_bound_witness :
    ({ sampleHookData with usedPreAllocatedEntriesCount := 1 }
        : HookData).usedPreAllocatedEntriesCount ≤ 50 ∧
    AllocateNptEntry
      { sampleHookData with usedPreAllocatedEntriesCount := 50 } = none :=
  ⟨((C10_preAllocPool_counter_bound sampleHookData).1 100
      { sampleHookData with usedPreAllocatedEntriesCount := 1 } rfl).2.1,
   (C10_preAllocPool_counter_bound
      { sampleHookData with usedPreAllocatedEntriesCount := 50 }).2 (by decide)⟩

/-
  Claim C5: EFER write with SVME cleared (code bug demonstration).
-/

/-- C5 (code bug): on an EFER write of 0 (SVME clear), HandleMsrAccess does
    inject #GP(0), but, contrary to the claim and to the comments in the
    source, it also writes the SVME-cleared value through to the VMCB EFER
    and advances RIP to NRip. Evaluated at EDX:EAX = 0:0 on a VMCB whose
    EFER was 0x1500 and RIP 0x100 with NRip 0x102. -/
theorem C5_efer_svme_clear_writes_through :
    EventInjVector (HandleMsrAccess 0 0 sampleVmcb).eventInj = 13 ∧
    EventInjType (HandleMsrAccess 0 0 sampleVmcb).eventInj = 3 ∧
    EventInjErrorCodeValid (HandleMsrAccess 0 0 sampleVmcb).eventInj = 1 ∧
    EventInjValid (HandleMsrAccess 0 0 sampleVmcb).eventInj = 1 ∧
    (HandleMsrAccess 0 0 sampleVmcb).efer = 0 ∧
    sampleVmcb.efer = 0x1500 ∧
    (HandleMsrAccess 0 0 sampleVmcb).rip = sampleVmcb.nRip ∧
    sampleVmcb.rip ≠ sampleVmcb.nRip := by
  decide

/-
  Claim C6: CPUID leaf 1 hypervisor-present bit (code bug demonstration).
-/

/-- C6 (code bug): for CPUID leaf 1 the source or-s the hypervisor-present
    bit into registers[3], the EDX slot, not the ECX slot registers[2].
    With hardware results (0x11, 0x22, 0x33, 0x44), the guest receives
    ECX = 0x33 (bit 31 clear, contradicting the claim) and
    EDX = 0x80000044 (changed from the hardware 0x44). -/
theorem C6_hypervisor_present_bit_lands_in_edx :
    (HandleCpuid sampleCpuidHw []
        { rax := 1, rbx := 0, rcx := 0, rdx := 0, exitVm := false }
        sampleVmcb sampleHookData).map
      (fun r => (r.1.rcx, r.1.rdx)) = some (0x33, 0x80000044) ∧
    Nat.testBit 0x33 31 = false ∧
    (0x44 : Nat) ≠ 0x80000044 := by
  decide

/-
  Claim C8: breakpoint exit handling.
-/

/-- C8: on a #BP exit, when some registered hook entry has its hook address
    equal to the guest RIP the handler only overwrites RIP with that entry's
    handler address (injecting nothing); otherwise it re-injects #BP with
    vector 3, type 3 (exception), no error code, and advances RIP to NRip. -/
theorem C8_breakpoint_exit (hooks : List HookEntry) (guestVmcb : Vmcb) :
    (∀ entry, FindHookEntryByAddress hooks guestVmcb.rip = some entry →
        HandleBreakPointException hooks guestVmcb
          = { guestVmcb with rip := entry.handler }) ∧
    ((∀ e ∈ hooks, e.hookAddress ≠ guestVmcb.rip) →
        HandleBreakPointException hooks guestVmcb
          = { guestVmcb with eventInj := 3 ||| (3 <<< 8) ||| (1 <<< 31),
                             rip := guestVmcb.nRip } ∧
        EventInjVector (3 ||| (3 <<< 8) ||| (1 <<< 31)) = 3 ∧
        EventInjType (3 ||| (3 <<< 8) ||| (1 <<< 31)) = 3 ∧
        EventInjErrorCodeValid (3 ||| (3 <<< 8) ||| (1 <<< 31)) = 0 ∧
        EventInjValid (3 ||| (3 <<< 8) ||| (1 <<< 31)) = 1) := by
  constructor
  · intro entry hfind
    unfold HandleBreakPointException
    rw [hfind]
  · intro hnone
    have hfind : FindHookEntryByAddress hooks guestVmcb.rip = none := by
      unfold FindHookEntryByAddress
      rw [List.find?_eq_none]
      intro e he
      simp only [beq_iff_eq]
      exact fun hc => hnone e he (by rw [hc])
    refine ⟨?_, by decide, by decide, by decide, by decide⟩
    unfold HandleBreakPointException
    rw [hfind]
    rfl

/-- Witness for C8: with the sample hook registered, a #BP at the hooked
    address jumps to the handler, and a #BP elsewhere re-injects. -/
theorem C8_breakpoint_exit_witness :
    HandleBreakPointException [sampleHookOne] { sampleVmcb with rip := 0x9000 }
      = { { sampleVmcb with rip := 0x9000 } with rip := sampleHookOne.handler } ∧
    HandleBreakPointException [sampleHookOne] sampleVmcb
      = { sampleVmcb with eventInj := 3 ||| (3 <<< 8) ||| (1 <<< 31),
                          rip := sampleVmcb.nRip } :=
  ⟨(C8_breakpoint_exit [sampleHookOne] { sampleVmcb with rip := 0x9000 }).1
      sampleHookOne (by decide),
   ((C8_breakpoint_exit [sampleHookOne] sampleVmcb).2 (by decide)).1⟩

/-
  Claim C9: CPUID back-door gated on SS.DPL = 0.
-/

/-- C9: a CPUID exit with EAX = 0x41414141 issued while the guest SS.DPL is
    not 0 takes no back-door action: the hook data (state machine and active
    hook) is returned unchanged, ExitVm keeps its incoming value, and the
    guest receives the plain hardware CPUID results with RIP advanced to
    NRip. -/
theorem C9_backdoor_requires_dpl0 (cpuidHw : Nat → Nat → CpuidResult)
    (hooks : List HookEntry) (ctx : GuestContext) (guestVmcb : Vmcb)
    (hookData : HookData)
    (hleaf : ctx.rax &&& 0xffffffff = 0x41414141)
    (hdpl : (guestVmcb.ssAttrib >>> 5) &&& 3 ≠ 0) :
    HandleCpuid cpuidHw hooks ctx guestVmcb hookData =
      some ({ ctx with
                rax := (cpuidHw 0x41414141 (ctx.rcx &&& 0xffffffff)).eax,
                rbx := (cpuidHw 0x41414141 (ctx.rcx &&& 0xffffffff)).ebx,
                rcx := (cpuidHw 0x41414141 (ctx.rcx &&& 0xffffffff)).ecx,
                rdx := (cpuidHw 0x41414141 (ctx.rcx &&& 0xffffffff)).edx,
                exitVm := ctx.exitVm },
            { guestVmcb with rip := guestVmcb.nRip },
            hookData) := by
  unfold HandleCpuid
  rw [hleaf]
  norm_num
  rw [if_neg hdpl]

/-- Witness for C9: the back-door leaf (even with the unload subleaf in ECX)
    from SS.DPL = 3 only produces the hardware CPUID results. -/
theorem C9_backdoor_requires_dpl0_witness :
    HandleCpuid sampleCpuidHw [sampleHookOne]
        { rax := 0x41414141, rbx := 0, rcx := 0x41414141, rdx := 0,
          exitVm := false }
        { sampleVmcb with ssAttrib := 0x60 } sampleHookData =
      some ({ rax := (sampleCpuidHw 0x41414141 0x41414141).eax,
              rbx := (sampleCpuidHw 0x41414141 0x41414141).ebx,
              rcx := (sampleCpuidHw 0x41414141 0x41414141).ecx,
              rdx := (sampleCpuidHw 0x41414141 0x41414141).edx,
              exitVm := false },
            { { sampleVmcb with ssAttrib := 0x60 } with
                rip := ({ sampleVmcb with ssAttrib := 0x60 } : Vmcb).nRip },
            sampleHookData) :=
  C9_backdoor_requires_dpl0 sampleCpuidHw [sampleHookOne]
    { rax := 0x41414141, rbx := 0, rcx := 0x41414141, rdx := 0, exitVm := false }
    { sampleVmcb with ssAttrib := 0x60 } sampleHookData (by decide) (by decide)

/-
  State/active-hook effect of each engine operation.
-/

theorem EnableHooks_nptState (hooks : List HookEntry) (hd : HookData) :
    (EnableHooks hooks hd).nptState = NptState.NptHookEnabledInvisible := rfl

theorem EnableHooks_activeHookEntry (hooks : List HookEntry) (hd : HookData) :
    (EnableHooks hooks hd).activeHookEntry = hd.activeHookEntry := rfl

theorem TransitionNptState1To2_state (hd hd1 : HookData) (he : HookEntry)
    (h : TransitionNptState1To2 hd he = some hd1) :
    hd1.activeHookEntry = some he ∧
    hd1.nptState = NptState.NptHookEnabledVisible := by
  unfold TransitionNptState1To2 at h
  simp only [] at h
  split at h
  · exact absurd h (by simp)
  · simp only [Option.some.injEq] at h
    subst h
    exact ⟨rfl, rfl⟩

theorem TransitionNtpState2To1_state (hooks : List HookEntry) (hd hd1 : HookData)
    (h : TransitionNtpState2To1 hooks hd = some hd1) :
    hd1.activeHookEntry = none ∧
    hd1.nptState = NptState.NptHookEnabledInvisible := by
  unfold TransitionNtpState2To1 at h
  split at h
  · exact absurd h (by simp)
  · simp only [] at h
    split at h
    · exact absurd h (by simp)
    · simp only [Option.some.injEq] at h
      subst h
      exact ⟨rfl, rfl⟩

theorem DisableHooks_state (hooks : List HookEntry) (hd hd1 : HookData)
    (h : DisableHooks hooks hd = some hd1) :
    hd1.nptState = NptState.NptDefault ∧
    (hd.nptState = NptState.NptHookEnabledInvisible →
        hd1.activeHookEntry = hd.activeHookEntry) ∧
    (hd.nptState ≠ NptState.NptHookEnabledInvisible →
        hd1.activeHookEntry = none) := by
  unfold DisableHooks at h
  split at h
  case isTrue hinv =>
    simp only [Option.some.injEq] at h
    subst h
    exact ⟨rfl, fun _ => rfl, fun hc => absurd hinv hc⟩
  case isFalse hinv =>
    split at h
    · exact absurd h (by simp)
    · simp only [] at h
      split at h
      · exact absurd h (by simp)
      · simp only [Option.some.injEq] at h
        subst h
        exact ⟨rfl, fun hc => absurd hc hinv, fun _ => rfl⟩

/-
  Claim C1: the active-hook/state invariant holds in every state the engine
  can reach.
-/

/-- C1: starting from the initial per-processor state (state 0, no active
    hook), after any sequence of engine operations (EnableHooks,
    DisableHooks, the 1-to-2 transition, the 2-to-1 transition, each entered
    under its asserted precondition), the hook data satisfies: the active
    hook entry is Some exactly when the state is HookExecVisible. -/
theorem C1_active_hook_iff_visible (hooks : List HookEntry) (hd0 hd : HookData)
    (hstate0 : hd0.nptState = NptState.NptDefault)
    (hactive0 : hd0.activeHookEntry = none)
    (hreach : HookStateReachable hooks hd0 hd) :
    hd.activeHookEntry.isSome = true ↔
      hd.nptState = NptState.NptHookEnabledVisible := by
  induction hreach with
  | refl =>
    rw [hstate0, hactive0]
    simp
  | tail hd2 hd3 _hr hstep ih =>
    cases hstep with
    | enableHooks hs ha =>
      rw [EnableHooks_nptState, EnableHooks_activeHookEntry, ha]
      simp
    | disableHooks hd3 hs hdis =>
      obtain ⟨h1, h2, h3⟩ := DisableHooks_state hooks hd2 hd3 hdis
      by_cases hinv : hd2.nptState = NptState.NptHookEnabledInvisible
      · have hnone : hd2.activeHookEntry = none := by
          cases hae : hd2.activeHookEntry with
          | none => rfl
          | some v =>
            exfalso
            have hvis : hd2.nptState = NptState.NptHookEnabledVisible :=
              ih.mp (by rw [hae]; rfl)
            rw [hinv] at hvis
            exact absurd hvis (by simp)
        rw [h1, h2 hinv, hnone]
        simp
      · rw [h1, h3 hinv]
        simp
    | transition1To2 hd3 he hs ha ht =>
      obtain ⟨h1, h2⟩ := TransitionNptState1To2_state hd2 hd3 he ht
      rw [h1, h2]
      simp
    | transition2To1 hd3 hs ht =>
      obtain ⟨h1, h2⟩ := TransitionNtpState2To1_state hooks hd2 hd3 ht
      rw [h1, h2]
      simp

/-- Witness for C1: the initial sample state, and the state after one
    EnableHooks step, both satisfy the invariant. -/
theorem C1_active_hook_iff_visible_witness :
    ((EnableHooks [sampleHookOne] sampleHookData).activeHookEntry.isSome = true ↔
      (EnableHooks [sampleHookOne] sampleHookData).nptState
        = NptState.NptHookEnabledVisible) :=
  C1_active_hook_iff_visible [sampleHookOne] sampleHookData
    (EnableHooks [sampleHookOne] sampleHookData) rfl rfl
    (HookStateReachable.tail _ _ _ (HookStateReachable.refl _)
      (HookStateStep.enableHooks _ rfl rfl))

/-
  Claim C2: NPF exec violation on another hook page while a hook is active.
-/

/-- C2: an NPF with a valid NPT entry (execute violation) whose faulting
    physical page belongs to a registered hook entry, taken in state
    HookExecVisible with an active hook, performs the full 2-to-1 transition
    on the outgoing active hook followed by the full 1-to-2 transition on
    the newly faulted hook entry; when the sequence completes it ends in
    state HookExecVisible with the active hook updated to the new entry. -/
theorem C2_hook_to_hook_exec_jump (hooks : List HookEntry) (e1 pa : Nat)
    (hd : HookData) (he h0 : HookEntry)
    (hstate : hd.nptState = NptState.NptHookEnabledVisible)
    (hactive : hd.activeHookEntry = some h0)
    (hfind : FindHookEntryByPhysicalPage hooks pa = some he)
    (hvalid : Nat.testBit e1 0 = true) :
    HandleNestedPageFault hooks e1 pa hd =
      (TransitionNtpState2To1 hooks hd).bind
        (fun hd1 => TransitionNptState1To2 hd1 he) ∧
    ∀ hd2, HandleNestedPageFault hooks e1 pa hd = some hd2 →
      hd2.nptState = NptState.NptHookEnabledVisible ∧
      hd2.activeHookEntry = some he := by
  have hmain : HandleNestedPageFault hooks e1 pa hd =
      (TransitionNtpState2To1 hooks hd).bind
        (fun hd1 => TransitionNptState1To2 hd1 he) := by
    unfold HandleNestedPageFault
    rw [hvalid]
    simp only [Bool.true_eq_false, if_false]
    unfold TransitionNptState
    rw [hfind, hactive]
  refine ⟨hmain, ?_⟩
  intro hd2 hres
  rw [hmain] at hres
  cases ho : TransitionNtpState2To1 hooks hd with
  | none => rw [ho] at hres; exact absurd hres (by simp)
  | some hd1 =>
    rw [ho, Option.some_bind] at hres
    obtain ⟨h1, h2⟩ := TransitionNptState1To2_state hd1 hd2 he hres
    exact ⟨h2, h1⟩

/-- Witness for C2: in the sample NPT with hooks on pages 0x1000 (active)
    and 0x2000, an exec NPF at 0x2000 runs 2-to-1 then 1-to-2 and the
    sequence completes. -/
theorem C2_hook_to_hook_exec_jump_witness :
    HandleNestedPageFault [sampleHookOne, sampleHookTwo] 1 0x2000
        { sampleHookData with activeHookEntry := some sampleHookOne,
                              nptState := NptState.NptHookEnabledVisible } =
      (TransitionNtpState2To1 [sampleHookOne, sampleHookTwo]
          { sampleHookData with activeHookEntry := some sampleHookOne,
                                nptState := NptState.NptHookEnabledVisible }).bind
        (fun hd1 => TransitionNptState1To2 hd1 sampleHookTwo) ∧
    (HandleNestedPageFault [sampleHookOne, sampleHookTwo] 1 0x2000
        { sampleHookData with activeHookEntry := some sampleHookOne,
                              nptState := NptState.NptHookEnabledVisible }).isSome
      = true :=
  ⟨(C2_hook_to_hook_exec_jump [sampleHookOne, sampleHookTwo] 1 0x2000
      { sampleHookData with activeHookEntry := some sampleHookOne,
                            nptState := NptState.NptHookEnabledVisible }
      sampleHookTwo sampleHookOne rfl rfl (by decide) (by decide)).1,
   by decide⟩

theorem setAllNoExecute_self (t : NptTables) (tbl : Nat) (nx : Bool) (i : Nat)
    (hi : i < 512) :
    setAllNoExecute t tbl nx tbl i = { t tbl i with noExecute := nx } := by
  unfold setAllNoExecute
  rw [if_pos ⟨rfl, hi⟩]

theorem setAllNoExecute_noExecute (t : NptTables) (tbl : Nat) (nx : Bool)
    (tb i : Nat) :
    (setAllNoExecute t tbl nx tb i).noExecute
      = if tb = tbl ∧ i < 512 then nx else (t tb i).noExecute := by
  unfold setAllNoExecute
  split <;> rfl

/-
  Claim C4: sibling masking in ChangePermissionOfPage.
-/

/-- C4: for a physical address whose 4-level walk succeeds,
    ChangePermissionOfPage with DisallowExecution = TRUE writes only the
    leaf NoExecute bit; with DisallowExecution = FALSE, if the covering PDPT
    entry is currently non-executable, it first clears that entry's
    NoExecute and forces NoExecute on all 512 PD entries below it, then does
    the same at the PD/PT level (whose entry was just masked), and only then
    clears the leaf NoExecute bit; if only the covering PD entry is
    non-executable, one such mask step happens before the leaf write. -/
theorem C4_change_permission_sibling_mask (t : NptTables) (pml4Pfn pa : Nat)
    (loc : Nat × Nat)
    (hwalk : GetNestedPageTableEntry t pml4Pfn pa = some loc) :
    (ChangePermissionOfPage t pml4Pfn pa true =
        updateEntry t (walkPtTable t pml4Pfn pa) (GetPteIndex pa)
          { t (walkPtTable t pml4Pfn pa) (GetPteIndex pa) with
              noExecute := true }) ∧
    ((t (walkPdptTable t pml4Pfn pa) (GetPpeIndex pa)).noExecute = true →
        ChangePermissionOfPage t pml4Pfn pa false =
          (let t1 := maskChildren t (walkPdptTable t pml4Pfn pa)
                       (GetPpeIndex pa) (walkPdTable t pml4Pfn pa)
           let t2 := maskChildren t1 (walkPdTable t pml4Pfn pa)
                       (GetPdeIndex pa) (walkPtTable t pml4Pfn pa)
           updateEntry t2 (walkPtTable t pml4Pfn pa) (GetPteIndex pa)
             { t2 (walkPtTable t pml4Pfn pa) (GetPteIndex pa) with
                 noExecute := false })) ∧
    ((t (walkPdptTable t pml4Pfn pa) (GetPpeIndex pa)).noExecute = false →
     (t (walkPdTable t pml4Pfn pa) (GetPdeIndex pa)).noExecute = true →
        ChangePermissionOfPage t pml4Pfn pa false =
          (let t1 := maskChildren t (walkPdTable t pml4Pfn pa)
                       (GetPdeIndex pa) (walkPtTable t pml4Pfn pa)
           updateEntry t1 (walkPtTable t pml4Pfn pa) (GetPteIndex pa)
             { t1 (walkPtTable t pml4Pfn pa) (GetPteIndex pa) with
                 noExecute := false })) := by
  refine ⟨?_, ?_, ?_⟩
  · unfold ChangePermissionOfPage walkPtTable walkPdTable walkPdptTable
    simp
  · intro hpdpt
    have h1 : (t (t pml4Pfn (GetPxeIndex pa)).pageFrameNumber
        (GetPpeIndex pa)).noExecute = true := hpdpt
    simp only [ChangePermissionOfPage, maskChildren, walkPtTable, walkPdTable,
      walkPdptTable, h1, setAllNoExecute_noExecute,
      setAllNoExecute_pageFrameNumber, updateEntry_setNx_pageFrameNumber,
      GetPdeIndex_lt_512, eq_self_iff_true, true_and, and_true, and_self,
      if_true]
  · intro hpdpt hpd
    have h1 : (t (t pml4Pfn (GetPxeIndex pa)).pageFrameNumber
        (GetPpeIndex pa)).noExecute = false := hpdpt
    have h2 : (t (t (t pml4Pfn (GetPxeIndex pa)).pageFrameNumber
        (GetPpeIndex pa)).pageFrameNumber (GetPdeIndex pa)).noExecute
        = true := hpd
    simp only [ChangePermissionOfPage, maskChildren, walkPtTable, walkPdTable,
      walkPdptTable, h1, h2, setAllNoExecute_noExecute,
      setAllNoExecute_pageFrameNumber, updateEntry_setNx_pageFrameNumber,
      GetPdeIndex_lt_512, eq_self_iff_true, true_and, and_true, and_self,
      if_true, Bool.false_eq_true, and_false, if_false]

/-- Witness for C4: on the sample NPT (walk of 0x1000 succeeds with leaf in
    table 10 at index 1), disallowing execution writes only the leaf bit,
    and the leaf indeed ends non-executable. -/
theorem C4_change_permission_sibling_mask_witness :
    ChangePermissionOfPage sampleWalkTables 7 0x1000 true =
      updateEntry sampleWalkTables (walkPtTable sampleWalkTables 7 0x1000)
        (GetPteIndex 0x1000)
        { sampleWalkTables (walkPtTable sampleWalkTables 7 0x1000)
            (GetPteIndex 0x1000) with noExecute := true } ∧
    (ChangePermissionOfPage sampleWalkTables 7 0x1000 true 10 1).noExecute
      = true :=
  ⟨(C4_change_permission_sibling_mask sampleWalkTables 7 0x1000 (10, 1)
      (by decide)).1,
   by decide⟩

/-
  Claim C7: MMIO NPF builds one leaf from the pool.
-/

theorem vwuAt_updateEntry (t : NptTables) (tbl idx : Nat) (e : NptEntry)
    (p : Nat × Nat)
    (he : e.valid = true ∧ e.write = true ∧ e.user = true)
    (hp : p = (tbl, idx) ∨ vwuAt t p) :
    vwuAt (updateEntry t tbl idx e) p := by
  by_cases hc : p.1 = tbl ∧ p.2 = idx
  · unfold vwuAt updateEntry
    rw [if_pos hc]
    exact he
  · unfold vwuAt updateEntry
    rw [if_neg hc]
    rcases hp with hp | hp
    · exact absurd ⟨by rw [hp], by rw [hp]⟩ hc
    · exact hp

theorem BuildPost_refl (hd : HookData) : BuildPost hd hd [] := by
  refine ⟨rfl, rfl, rfl, rfl, rfl, by simp, fun p _ => rfl, by simp⟩

theorem BuildPost_trans (hd hd1 hd2 : HookData) (l1 l2 : List (Nat × Nat))
    (h1 : BuildPost hd hd1 l1) (h2 : BuildPost hd1 hd2 l2) :
    BuildPost hd hd2 (l1 ++ l2) := by
  obtain ⟨a1, b1, c1, d1, e1, f1, g1, v1⟩ := h1
  obtain ⟨a2, b2, c2, d2, e2, f2, g2, v2⟩ := h2
  refine ⟨a2.trans a1, b2.trans b1, c2.trans c1, d2.trans d1, e2.trans e1,
          ?_, ?_, ?_⟩
  · rw [List.length_append]
    omega
  · intro p hp
    rw [List.mem_append] at hp
    push_neg at hp
    exact (g2 p hp.2).trans (g1 p hp.1)
  · intro p hp
    rw [List.mem_append] at hp
    by_cases hc : p ∈ l2
    · exact v2 p hc
    · have hp1 : p ∈ l1 := by tauto
      have heq : hd2.tables p.1 p.2 = hd1.tables p.1 p.2 := g2 p hc
      unfold vwuAt
      rw [heq]
      exact v1 p hp1

theorem BuildNestedPageTableEntryInterior_post (hd : HookData) (tbl idx : Nat)
    (hd1 : HookData) (sub : Nat)
    (h : BuildNestedPageTableEntryInterior hd tbl idx = some (hd1, sub)) :
    ∃ l : List (Nat × Nat), l.length ≤ 1 ∧ BuildPost hd hd1 l := by
  unfold BuildNestedPageTableEntryInterior at h
  simp only [] at h
  split at h
  case isTrue hv =>
    simp only [Option.some.injEq, Prod.mk.injEq] at h
    obtain ⟨h1, _⟩ := h
    subst h1
    exact ⟨[], by simp, BuildPost_refl hd⟩
  case isFalse hv =>
    split at h
    · exact absurd h (by simp)
    case h_2 subT hdA heq =>
      unfold AllocateNptEntry at heq
      simp only [] at heq
      split at heq
      · exact absurd heq (by simp)
      case isFalse hc =>
        simp only [Option.some.injEq, Prod.mk.injEq] at heq
        obtain ⟨he1, he2⟩ := heq
        simp only [Option.some.injEq, Prod.mk.injEq] at h
        obtain ⟨h1, _h2⟩ := h
        refine ⟨[(tbl, idx)], by simp, ?_⟩
        rw [← h1, ← he2]
        refine ⟨rfl, rfl, rfl, rfl, rfl, ?_, ?_, ?_⟩
        · exact le_rfl
        · intro p hp
          simp only [List.mem_singleton] at hp
          exact updateEntry_frame _ _ _ _ _ _ hp
        · intro p hp
          simp only [List.mem_singleton] at hp
          subst hp
          exact vwuAt_updateEntry _ _ _ _ _ ⟨rfl, rfl, rfl⟩ (Or.inl rfl)

/-- C7: an NPF with ExitInfo1.Valid = 0 (no NPT entry; MMIO) at a physical
    address not previously mapped leaves the hook state and active hook
    unchanged, consumes at most four pool slots, and, when the build
    succeeds, creates exactly one leaf mapping pa 1:1 (pfn = pa >> 12,
    valid/write/user set) plus at most three new interior entries (each with
    valid/write/user set), with every other NPT entry untouched. -/
theorem C7_mmio_fault_builds_one_leaf (hooks : List HookEntry) (e1 pa : Nat)
    (hd : HookData)
    (hvalid : Nat.testBit e1 0 = false)
    (hnew : LeafNotMapped hd.tables hd.pml4Pfn pa) :
    ∀ hd1, HandleNestedPageFault hooks e1 pa hd = some hd1 →
      hd1.nptState = hd.nptState ∧
      hd1.activeHookEntry = hd.activeHookEntry ∧
      hd1.usedPreAllocatedEntriesCount
        ≤ hd.usedPreAllocatedEntriesCount + 4 ∧
      ∃ leafTb leafIdx : Nat, ∃ interiors : List (Nat × Nat),
        BuildSubTables hd pa = some (hd1, leafTb, leafIdx) ∧
        interiors.length ≤ 3 ∧
        (hd1.tables leafTb leafIdx).valid = true ∧
        (hd1.tables leafTb leafIdx).write = true ∧
        (hd1.tables leafTb leafIdx).user = true ∧
        (hd1.tables leafTb leafIdx).pageFrameNumber = GetPfnFromPa pa ∧
        (∀ p ∈ interiors, vwuAt hd1.tables p) ∧
        (∀ p : Nat × Nat, p ∉ interiors → p ≠ (leafTb, leafIdx) →
            hd1.tables p.1 p.2 = hd.tables p.1 p.2) := by
  intro hd1 h
  unfold HandleNestedPageFault at h
  rw [hvalid] at h
  simp only [] at h
  rw [if_true] at h
  rcases hb : BuildSubTables hd pa with _ | ⟨hdX, tb, i⟩
  · rw [hb] at h
    exact absurd h (by simp)
  · rw [hb] at h
    simp only [Option.some.injEq] at h
    subst h
    have hbKeep := hb
    -- dissect the build
    unfold BuildSubTables at hb
    rcases h4 : BuildNestedPageTableEntryInterior hd hd.pml4Pfn
        (GetPxeIndex pa) with _ | ⟨hdA, tblPdpt⟩
    · rw [h4] at hb
      exact absurd hb (by simp)
    rw [h4] at hb
    simp only [] at hb
    rcases h3 : BuildNestedPageTableEntryInterior hdA tblPdpt
        (GetPpeIndex pa) with _ | ⟨hdB, tblPd⟩
    · rw [h3] at hb
      exact absurd hb (by simp)
    rw [h3] at hb
    simp only [] at hb
    rcases h2 : BuildNestedPageTableEntryInterior hdB tblPd
        (GetPdeIndex pa) with _ | ⟨hdC, tblPt⟩
    · rw [h2] at hb
      exact absurd hb (by simp)
    rw [h2] at hb
    simp only [Option.some.injEq, Prod.mk.injEq] at hb
    obtain ⟨hbd, hbt, hbi⟩ := hb
    obtain ⟨l4, hl4, p4⟩ :=
      BuildNestedPageTableEntryInterior_post hd hd.pml4Pfn (GetPxeIndex pa)
        hdA tblPdpt h4
    obtain ⟨l3, hl3, p3⟩ :=
      BuildNestedPageTableEntryInterior_post hdA tblPdpt (GetPpeIndex pa)
        hdB tblPd h3
    obtain ⟨l2, hl2, p2⟩ :=
      BuildNestedPageTableEntryInterior_post hdB tblPd (GetPdeIndex pa)
        hdC tblPt h2
    have post : BuildPost hd hdC (l4 ++ l3 ++ l2) :=
      BuildPost_trans _ _ _ _ _ (BuildPost_trans _ _ _ _ _ p4 p3) p2
    obtain ⟨a, b, c, d, e, f, g, v⟩ := post
    have hlen : (l4 ++ l3 ++ l2).length ≤ 3 := by
      simp only [List.length_append]
      omega
    subst hbd
    refine ⟨by rw [← e], by rw [← d], ?_, tblPt, GetPteIndex pa,
            l4 ++ l3 ++ l2, ?_, hlen, ?_, ?_, ?_, ?_, ?_, ?_⟩
    · show hdC.usedPreAllocatedEntriesCount
        ≤ hd.usedPreAllocatedEntriesCount + 4
      omega
    · rw [hbt, hbi]
    · show ((updateEntry hdC.tables tblPt (GetPteIndex pa) _) tblPt
        (GetPteIndex pa)).valid = true
      rw [updateEntry_self]
    · show ((updateEntry hdC.tables tblPt (GetPteIndex pa) _) tblPt
        (GetPteIndex pa)).write = true
      rw [updateEntry_self]
    · show ((updateEntry hdC.tables tblPt (GetPteIndex pa) _) tblPt
        (GetPteIndex pa)).user = true
      rw [updateEntry_self]
    · show ((updateEntry hdC.tables tblPt (GetPteIndex pa) _) tblPt
        (GetPteIndex pa)).pageFrameNumber = GetPfnFromPa pa
      rw [updateEntry_self]
    · intro p hp
      exact vwuAt_updateEntry _ _ _ _ _ ⟨rfl, rfl, rfl⟩ (Or.inr (v p hp))
    · intro p hp hpl
      show (updateEntry hdC.tables tblPt (GetPteIndex pa) _) p.1 p.2
        = hd.tables p.1 p.2
      rw [updateEntry_frame _ _ _ _ _ _ hpl]
      exact g p hp

/-- Witness for C7: an MMIO-style NPF at the unmapped address 0x5000 on the
    sample data leaves the state, active hook, and (within the bound) the
    pool counter as claimed. -/
theorem C7_mmio_fault_builds_one_leaf_witness :
    ((HandleNestedPageFault [] 0 0x5000 sampleHookData).get (by decide)).nptState
        = sampleHookData.nptState ∧
    ((HandleNestedPageFault [] 0 0x5000
        sampleHookData).get (by decide)).activeHookEntry
        = sampleHookData.activeHookEntry ∧
    ((HandleNestedPageFault [] 0 0x5000
        sampleHookData).get (by decide)).usedPreAllocatedEntriesCount
        ≤ sampleHookData.usedPreAllocatedEntriesCount + 4 := by
  have hnew : LeafNotMapped sampleHookData.tables sampleHookData.pml4Pfn 0x5000 := by
    exact (by decide : (sampleHookData.tables 10 5).valid = false)
  have h := C7_mmio_fault_builds_one_leaf [] 0 0x5000 sampleHookData
    (by decide) hnew
    ((HandleNestedPageFault [] 0 0x5000 sampleHookData).get (by decide))
    (Option.some_get _).symm
  exact ⟨h.1, h.2.1, h.2.2.1⟩

/-
  Claim C3: masked-table machinery.
-/

theorem maskNx_pageFrameNumber (t : NptTables) (a : Nat → Nat → Bool)
    (tb i : Nat) :
    (maskNx t a tb i).pageFrameNumber = (t tb i).pageFrameNumber := by
  unfold maskNx
  split <;> rfl

theorem maskNx_noExecute (t : NptTables) (a : Nat → Nat → Bool) (tb i : Nat) :
    (maskNx t a tb i).noExecute = (a tb i || (t tb i).noExecute) := by
  cases ha : a tb i <;> simp [maskNx, ha]

theorem maskNx_false (t : NptTables) : maskNx t (fun _ _ => false) = t := by
  funext tb i
  unfold maskNx
  simp

theorem maskNx_congr (t : NptTables) (a b : Nat → Nat → Bool)
    (h : ∀ tb i, a tb i = b tb i) : maskNx t a = maskNx t b := by
  funext tb i
  unfold maskNx
  rw [h]

theorem walkPdptTable_maskNx (t : NptTables) (a : Nat → Nat → Bool)
    (pml4Pfn pa : Nat) :
    walkPdptTable (maskNx t a) pml4Pfn pa = walkPdptTable t pml4Pfn pa := by
  unfold walkPdptTable
  rw [maskNx_pageFrameNumber]

theorem walkPdTable_maskNx (t : NptTables) (a : Nat → Nat → Bool)
    (pml4Pfn pa : Nat) :
    walkPdTable (maskNx t a) pml4Pfn pa = walkPdTable t pml4Pfn pa := by
  unfold walkPdTable
  rw [maskNx_pageFrameNumber, walkPdptTable_maskNx]

theorem walkPtTable_maskNx (t : NptTables) (a : Nat → Nat → Bool)
    (pml4Pfn pa : Nat) :
    walkPtTable (maskNx t a) pml4Pfn pa = walkPtTable t pml4Pfn pa := by
  unfold walkPtTable
  rw [maskNx_pageFrameNumber, walkPdTable_maskNx]

theorem NptEntry_setNxFalse_id (e : NptEntry) (h : e.noExecute = false) :
    { e with noExecute := false } = e := by
  cases e with
  | mk v w u p n =>
    cases n
    · rfl
    · simp at h

/-- Making a page non-executable writes exactly the leaf NoExecute bit. -/
theorem ChangePermissionOfPage_true (t : NptTables) (pml4Pfn pa : Nat) :
    ChangePermissionOfPage t pml4Pfn pa true =
      updateEntry t (walkPtTable t pml4Pfn pa) (GetPteIndex pa)
        { t (walkPtTable t pml4Pfn pa) (GetPteIndex pa) with
            noExecute := true } := by
  unfold ChangePermissionOfPage walkPtTable walkPdTable walkPdptTable
  simp

/-- Making a page executable when the covering PDPT and PD entries are
    already executable writes exactly the leaf NoExecute bit. -/
theorem ChangePermissionOfPage_false_clean (t : NptTables) (pml4Pfn pa : Nat)
    (h1 : (t (walkPdptTable t pml4Pfn pa) (GetPpeIndex pa)).noExecute = false)
    (h2 : (t (walkPdTable t pml4Pfn pa) (GetPdeIndex pa)).noExecute = false) :
    ChangePermissionOfPage t pml4Pfn pa false =
      updateEntry t (walkPtTable t pml4Pfn pa) (GetPteIndex pa)
        { t (walkPtTable t pml4Pfn pa) (GetPteIndex pa) with
            noExecute := false } := by
  have h1' : (t (t pml4Pfn (GetPxeIndex pa)).pageFrameNumber
      (GetPpeIndex pa)).noExecute = false := h1
  have h2' : (t (t (t pml4Pfn (GetPxeIndex pa)).pageFrameNumber
      (GetPpeIndex pa)).pageFrameNumber (GetPdeIndex pa)).noExecute
      = false := h2
  simp only [ChangePermissionOfPage, walkPtTable, walkPdTable, walkPdptTable,
    h1', h2', Bool.false_eq_true, and_false, if_false, eq_self_iff_true,
    true_and]

theorem maskNx_apply (t : NptTables) (a : Nat → Nat → Bool) (tb i : Nat) :
    maskNx t a tb i
      = if a tb i = true then { t tb i with noExecute := true } else t tb i := rfl

theorem locMask_self (tbl idx : Nat) : locMask tbl idx tbl idx = true := by
  simp [locMask]

theorem locMask_ne (tbl idx tb i : Nat) (h : ¬(tb = tbl ∧ i = idx)) :
    locMask tbl idx tb i = false := by
  unfold locMask
  rw [Bool.eq_false_iff]
  intro hcc
  rw [Bool.and_eq_true, beq_iff_eq, beq_iff_eq] at hcc
  exact h hcc

theorem CPP_true_on_maskNx (t : NptTables) (a : Nat → Nat → Bool)
    (pml4Pfn pa : Nat) :
    ChangePermissionOfPage (maskNx t a) pml4Pfn pa true
      = maskNx t (fun tb i => a tb i ||
          locMask (walkPtTable t pml4Pfn pa) (GetPteIndex pa) tb i) := by
  rw [ChangePermissionOfPage_true, walkPtTable_maskNx]
  funext tb i
  by_cases hc : tb = walkPtTable t pml4Pfn pa ∧ i = GetPteIndex pa
  · obtain ⟨hc1, hc2⟩ := hc
    rw [hc1, hc2, updateEntry_self, maskNx_apply, maskNx_apply, locMask_self,
      Bool.or_true, if_pos rfl]
    cases ha : a (walkPtTable t pml4Pfn pa) (GetPteIndex pa) <;> simp [ha]
  · rw [updateEntry_frame _ _ _ _ _ _ (by
      intro hcc
      exact hc ⟨congrArg Prod.fst hcc, congrArg Prod.snd hcc⟩)]
    rw [maskNx_apply, maskNx_apply, locMask_ne _ _ _ _ hc, Bool.or_false]

theorem CPP_false_on_maskNx (t : NptTables) (a : Nat → Nat → Bool)
    (pml4Pfn pa : Nat)
    (hnx : ∀ tb i, (t tb i).noExecute = false)
    (h1 : a (walkPdptTable t pml4Pfn pa) (GetPpeIndex pa) = false)
    (h2 : a (walkPdTable t pml4Pfn pa) (GetPdeIndex pa) = false) :
    ChangePermissionOfPage (maskNx t a) pml4Pfn pa false
      = maskNx t (fun tb i => a tb i &&
          !(locMask (walkPtTable t pml4Pfn pa) (GetPteIndex pa) tb i)) := by
  rw [ChangePermissionOfPage_false_clean (maskNx t a) pml4Pfn pa
      (by rw [walkPdptTable_maskNx, maskNx_noExecute, h1, hnx]; rfl)
      (by rw [walkPdTable_maskNx, maskNx_noExecute, h2, hnx]; rfl),
    walkPtTable_maskNx]
  funext tb i
  by_cases hc : tb = walkPtTable t pml4Pfn pa ∧ i = GetPteIndex pa
  · obtain ⟨hc1, hc2⟩ := hc
    rw [hc1, hc2, updateEntry_self, maskNx_apply, maskNx_apply, locMask_self]
    simp only [Bool.not_true, Bool.and_false, Bool.false_eq_true, if_false]
    cases ha : a (walkPtTable t pml4Pfn pa) (GetPteIndex pa)
    · rw [if_neg (by simp)]
      exact NptEntry_setNxFalse_id _ (hnx _ _)
    · rw [if_pos rfl]
      show { t (walkPtTable t pml4Pfn pa) (GetPteIndex pa) with
               noExecute := false }
        = t (walkPtTable t pml4Pfn pa) (GetPteIndex pa)
      exact NptEntry_setNxFalse_id _ (hnx _ _)
  · rw [updateEntry_frame _ _ _ _ _ _ (by
      intro hcc
      exact hc ⟨congrArg Prod.fst hcc, congrArg Prod.snd hcc⟩)]
    rw [maskNx_apply, maskNx_apply, locMask_ne _ _ _ _ hc]
    simp only [Bool.not_false, Bool.and_true]

theorem foldl_CPP_true_maskNx (l : List HookEntry) (t : NptTables)
    (pml4Pfn : Nat) (a : Nat → Nat → Bool) :
    l.foldl
        (fun tcur r => ChangePermissionOfPage tcur pml4Pfn r.phyPageBase true)
        (maskNx t a)
      = maskNx t (fun tb i => a tb i || listLeafMask t pml4Pfn l tb i) := by
  induction l generalizing a with
  | nil =>
    simp only [List.foldl_nil]
    exact maskNx_congr _ _ _ (by intro tb i; simp [listLeafMask])
  | cons hHead tl ih =>
    simp only [List.foldl_cons]
    rw [CPP_true_on_maskNx, ih]
    apply maskNx_congr
    intro tb i
    simp [listLeafMask, List.any_cons, Bool.or_assoc]

theorem foldl_CPP_false_maskNx (l : List HookEntry) (t : NptTables)
    (pml4Pfn : Nat) (a : Nat → Nat → Bool)
    (hnx : ∀ tb i, (t tb i).noExecute = false)
    (hint : ∀ h ∈ l,
        a (walkPdptTable t pml4Pfn h.phyPageBase)
            (GetPpeIndex h.phyPageBase) = false ∧
        a (walkPdTable t pml4Pfn h.phyPageBase)
            (GetPdeIndex h.phyPageBase) = false) :
    l.foldl
        (fun tcur r => ChangePermissionOfPage tcur pml4Pfn r.phyPageBase false)
        (maskNx t a)
      = maskNx t (fun tb i => a tb i && !(listLeafMask t pml4Pfn l tb i)) := by
  induction l generalizing a with
  | nil =>
    simp only [List.foldl_nil]
    exact maskNx_congr _ _ _ (by intro tb i; simp [listLeafMask])
  | cons hHead tl ih =>
    simp only [List.foldl_cons]
    rw [CPP_false_on_maskNx t a pml4Pfn hHead.phyPageBase hnx
        (hint hHead (List.mem_cons_self _ _)).1
        (hint hHead (List.mem_cons_self _ _)).2]
    rw [ih]
    · apply maskNx_congr
      intro tb i
      simp [listLeafMask, List.any_cons, Bool.not_or, Bool.and_assoc]
    · intro h hh
      refine ⟨?_, ?_⟩
      · show (a (walkPdptTable t pml4Pfn h.phyPageBase)
            (GetPpeIndex h.phyPageBase) && _) = false
        rw [(hint h (List.mem_cons_of_mem _ hh)).1, Bool.false_and]
      · show (a (walkPdTable t pml4Pfn h.phyPageBase)
            (GetPdeIndex h.phyPageBase) && _) = false
        rw [(hint h (List.mem_cons_of_mem _ hh)).2, Bool.false_and]

/-
  Claim C3: EnableHooks then DisableHooks is the identity on the NPT.
-/

/-- C3: on an NPT as built at initialization (every NoExecute bit clear, and
    no hook page's PT leaf location coinciding with the PDPT or PD interior
    entry location of any hook page's walk -- distinct physical table pages
    play distinct roles), starting from state 0 with no active hook, running
    EnableHooks and then DisableHooks returns exactly the original hook
    data: every NPT entry at every level is byte-identical, the state is 0
    and the active hook is None. -/
theorem C3_enable_then_disable_is_identity (hooks : List HookEntry)
    (hd : HookData)
    (hstate : hd.nptState = NptState.NptDefault)
    (hactive : hd.activeHookEntry = none)
    (hnx : ∀ tb i, (hd.tables tb i).noExecute = false)
    (hdistinct : ∀ g ∈ hooks, ∀ h ∈ hooks,
        walkPtLoc hd.tables hd.pml4Pfn g.phyPageBase
            ≠ walkPdptLoc hd.tables hd.pml4Pfn h.phyPageBase ∧
        walkPtLoc hd.tables hd.pml4Pfn g.phyPageBase
            ≠ walkPdLoc hd.tables hd.pml4Pfn h.phyPageBase) :
    DisableHooks hooks (EnableHooks hooks hd) = some hd := by
  have htab : (EnableHooks hooks hd).tables
      = maskNx hd.tables (listLeafMask hd.tables hd.pml4Pfn hooks) := by
    show hooks.foldl
        (fun tcur r =>
          ChangePermissionOfPage tcur hd.pml4Pfn r.phyPageBase true)
        hd.tables = _
    conv_lhs => rw [← maskNx_false hd.tables]
    rw [foldl_CPP_true_maskNx]
    exact maskNx_congr _ _ _ (by intro tb i; simp)
  have hintall : ∀ h ∈ hooks,
      listLeafMask hd.tables hd.pml4Pfn hooks
          (walkPdptTable hd.tables hd.pml4Pfn h.phyPageBase)
          (GetPpeIndex h.phyPageBase) = false ∧
      listLeafMask hd.tables hd.pml4Pfn hooks
          (walkPdTable hd.tables hd.pml4Pfn h.phyPageBase)
          (GetPdeIndex h.phyPageBase) = false := by
    intro h hh
    constructor
    · unfold listLeafMask
      rw [List.any_eq_false]
      intro g hg
      rw [Bool.not_eq_true]
      apply locMask_ne
      rintro ⟨e1, e2⟩
      exact (hdistinct g hg h hh).1
        (by unfold walkPtLoc walkPdptLoc; rw [e1, e2])
    · unfold listLeafMask
      rw [List.any_eq_false]
      intro g hg
      rw [Bool.not_eq_true]
      apply locMask_ne
      rintro ⟨e1, e2⟩
      exact (hdistinct g hg h hh).2
        (by unfold walkPtLoc walkPdLoc; rw [e1, e2])
  have hdis : hooks.foldl
      (fun tcur r => ChangePermissionOfPage tcur
        (EnableHooks hooks hd).pml4Pfn r.phyPageBase false)
      (EnableHooks hooks hd).tables = hd.tables := by
    have hp : (EnableHooks hooks hd).pml4Pfn = hd.pml4Pfn := rfl
    rw [hp, htab,
      foldl_CPP_false_maskNx hooks hd.tables hd.pml4Pfn _ hnx hintall]
    have hzero : maskNx hd.tables
        (fun tb i => listLeafMask hd.tables hd.pml4Pfn hooks tb i &&
          !(listLeafMask hd.tables hd.pml4Pfn hooks tb i))
        = maskNx hd.tables (fun _ _ => false) :=
      maskNx_congr _ _ _ (by intro tb i; exact Bool.and_not_self _)
    rw [hzero, maskNx_false]
  unfold DisableHooks
  rw [if_pos (show (EnableHooks hooks hd).nptState
      = NptState.NptHookEnabledInvisible from rfl)]
  simp only []
  rw [hdis, ← hstate]
  rfl

/-- Witness for C3: on the sample data (all NoExecute clear, table pages 7,
    8, 9, 10 in distinct roles) with the sample hook on page 0x1000,
    EnableHooks then DisableHooks returns exactly the original hook data. -/
theorem C3_enable_then_disable_is_identity_witness :
    DisableHooks [sampleHookOne] (EnableHooks [sampleHookOne] sampleHookData)
      = some sampleHookData :=
  C3_enable_then_disable_is_identity [sampleHookOne] sampleHookData rfl rfl
    (by
      intro tb i
      show (sampleWalkTables tb i).noExecute = false
      unfold sampleWalkTables
      split_ifs <;> rfl)
    (by decide)

end SimpleSvmHook
